import Mathlib

/-!
Shallow embedding of `scripts/fetch_tmdb_data.py` (the per-item enrichment
fetcher) for verification of its specification.

Modelling conventions:
- a missing dataframe cell (pandas `NaN`/`None`) is `Option.none`; a present
  numeric cell is `some (q : ℚ)` (the script only manipulates finite decimal
  numbers, so ℚ is an exact model of the values that occur);
- `math.log1p` is an uninterpreted parameter `log1p : ℚ → ℚ` of the merge
  pipeline, so every statement holds for the real logarithm in particular;
- JSON payloads returned by `requests.Response.json()` are modelled by the
  inductive `JVal`; Python truthiness of a payload is `truthy`;
- the retry loop of `safe_get` is modelled with an explicit fuel equal to the
  number of loop iterations still available, an `attempt` counter starting at
  1 as in `range(1, max_retries + 1)`, and a chronological log of the
  durations passed to `time.sleep`.
-/

/-- Constant `MAX_RETRIES = 5` from the script's CONFIG block. -/
def MAX_RETRIES : ℕ := 5

/-- Constant `BACKOFF_BASE = 2` from the script's CONFIG block. -/
def BACKOFF_BASE : ℚ := 2

/-- Constant `FALLBACK_SEARCH = False` from the script's CONFIG block. -/
def FALLBACK_SEARCH : Bool := false

/-- A JSON value, as produced by `response.json()`. -/
inductive JVal where
  | null : JVal
  | num (q : ℚ) : JVal
  | str (s : String) : JVal
  | arr (xs : List JVal) : JVal
  | obj (kvs : List (String × JVal)) : JVal
deriving Repr

/-- Python truthiness of a JSON value (`if not details: ...`). -/
def truthy : JVal → Bool
  | .null => false
  | .num q => decide (q ≠ 0)
  | .str s => decide (s ≠ "")
  | .arr xs => !xs.isEmpty
  | .obj kvs => !kvs.isEmpty

/-- Python `dict.get(k)`: `none` when the key is absent or the value is not a
dict (the script only ever calls `.get` on dict payloads). -/
def dget (j : JVal) (k : String) : Option JVal :=
  match j with
  | .obj kvs => (kvs.find? (fun kv => decide (kv.1 = k))).map Prod.snd
  | _ => none

/-- Python `dict.get(k, [])` followed by iteration: yields the list when the
value is a JSON array, `[]` when the key is absent (iterating a non-list
would be a Python type error, outside the model). -/
def getArr (j : Option JVal) : List JVal :=
  match j with
  | some (.arr xs) => xs
  | _ => []

/-- Coerce an optional JSON value to an optional rational, as the numeric
fields (`budget`, `revenue`) of a detail payload are stored into the record. -/
def asNum : Option JVal → Option ℚ
  | some (.num q) => some q
  | _ => none

/-- Coerce an optional JSON value to an optional string (director name). -/
def asStr : Option JVal → Option String
  | some (.str s) => some s
  | _ => none

/-- `c.get("popularity", 0)` for a cast member: the default 0 applies when
the key is absent (a non-numeric value would be a Python type error in the
subsequent `sum`, outside the model). -/
def popVal (c : JVal) : ℚ :=
  match dget c "popularity" with
  | some (.num q) => q
  | _ => 0

/-- `c.get("job") == "Director"` for a crew member. -/
def jobIsDirector (c : JVal) : Bool :=
  match dget c "job" with
  | some (.str s) => decide (s = "Director")
  | _ => false

/-- The `for c in crew: if job == "Director": director = name; break` loop. -/
def findDirector : List JVal → Option JVal
  | [] => none
  | c :: rest => if jobIsDirector c then dget c "name" else findDirector rest

/-- The record built by `fetch_by_id` (and later round-tripped through the
checkpoint CSV): `id` is always `int(movie_id)`, the other fields optional. -/
structure EnrichRec where
  id : Int
  budget : Option ℚ
  revenue : Option ℚ
  director_encoded : Option String
  top_cast_avg_rating : Option ℚ
deriving DecidableEq, Repr

/-- `fetch_by_id(movie_id)`, lines 62-102 of the script. The two network
calls are modelled by their outcomes `details, credits : Option JVal`
(`none` = `safe_get` returned `None`). `if not details: return None` rejects
both `None` and a falsy payload; likewise for `credits`. -/
def fetch_by_id (movie_id : Int) (details credits : Option JVal) : Option EnrichRec :=
  match details with
  | none => none
  | some d =>
    if truthy d = false then none
    else
      match credits with
      | none => none
      | some c =>
        if truthy c = false then none
        else
          let director := findDirector (getArr (dget c "crew"))
          let top_cast := (getArr (dget c "cast")).take 3
          let top_cast_avg : Option ℚ :=
            if top_cast.isEmpty then none
            else some ((top_cast.map popVal).sum / (top_cast.length : ℚ))
          some { id := movie_id
                 budget := asNum (dget d "budget")
                 revenue := asNum (dget d "revenue")
                 director_encoded := asStr director
                 top_cast_avg_rating := top_cast_avg }

/-- Outcome of one `requests.get` attempt inside `safe_get`: either a
`requests.RequestException`, or a response with a status code, an optional
`Retry-After` header (modelled as its integer value; `none` covers both an
absent header and an empty, hence falsy, header string) and a parsed body. -/
inductive Resp where
  | exn : Resp
  | ok (status : ℕ) (retryAfter : Option ℕ) (payload : JVal) : Resp

/-- Observable outcome of a `safe_get` call: the returned value, the number
of `requests.get` attempts performed, and the chronological list of durations
passed to `time.sleep`. -/
structure SGResult where
  result : Option JVal
  attempts : ℕ
  sleeps : List ℚ
deriving Repr

/-- The body of `safe_get`'s `for attempt in range(1, max_retries + 1)` loop
(lines 26-59). `resp attempt` is the outcome of the attempt-th `requests.get`.
`fuel` counts the loop iterations still available (initially `maxRetries`),
`wait` is the current backoff value (initially `1.0`), `sleeps` accumulates
sleep durations most-recent-first. Falling off the loop returns `None` with
`attempt - 1` attempts performed. -/
def safeGetGo (resp : ℕ → Resp) (maxRetries : ℕ) :
    ℕ → ℕ → ℚ → List ℚ → SGResult
  | 0, attempt, _, sleeps =>
      { result := none, attempts := attempt - 1, sleeps := sleeps.reverse }
  | fuel + 1, attempt, wait, sleeps =>
      match resp attempt with
      | .exn =>
          -- network error -> backoff and retry; on the final attempt return None
          if attempt = maxRetries then
            { result := none, attempts := attempt, sleeps := sleeps.reverse }
          else
            safeGetGo resp maxRetries fuel (attempt + 1) (wait * BACKOFF_BASE) (wait :: sleeps)
      | .ok status retryAfter _payload =>
          if status = 200 then
            { result := some _payload, attempts := attempt, sleeps := sleeps.reverse }
          else if status = 429 then
            -- rate limited -> Retry-After + 1 if the header is present, else wait
            let sleepFor : ℚ :=
              match retryAfter with
              | some n => (n : ℚ) + 1
              | none => wait
            safeGetGo resp maxRetries fuel (attempt + 1) (wait * BACKOFF_BASE) (sleepFor :: sleeps)
          else if 500 ≤ status ∧ status < 600 then
            -- server error -> backoff
            safeGetGo resp maxRetries fuel (attempt + 1) (wait * BACKOFF_BASE) (wait :: sleeps)
          else
            -- other client error (404, 401, etc.) -> do not retry
            { result := none, attempts := attempt, sleeps := sleeps.reverse }

/-- `safe_get(url, params, max_retries)`, lines 23-60: run the loop starting
at attempt 1 with `wait = 1.0`. The url/params only determine `resp`. -/
def safe_get (resp : ℕ → Resp) (maxRetries : ℕ) : SGResult :=
  safeGetGo resp maxRetries maxRetries 1 1 []

/-- A row of the input dataframe (`tmdb_api_movies_filtered.csv`) restricted
to the columns the merge logic touches; `id` was passed through
`pd.to_numeric(..., errors="coerce")`, so it is an optional integer. -/
structure Row where
  id : Option Int
  budget : Option ℚ
  revenue : Option ℚ
  director_encoded : Option String
  top_cast_avg_rating : Option ℚ
deriving DecidableEq, Repr

/-- A row of `df.merge(enriched_df, on="id", how="left", suffixes=("", "_new"))`:
the original columns plus the `_new` columns from the enrichment frame. -/
structure MergedRow where
  id : Option Int
  budget : Option ℚ
  revenue : Option ℚ
  director_encoded : Option String
  top_cast_avg_rating : Option ℚ
  budget_new : Option ℚ
  revenue_new : Option ℚ
  director_encoded_new : Option String
  top_cast_avg_rating_new : Option ℚ
deriving DecidableEq, Repr

/-- A row of the final output table: merged columns plus the three derived
columns recomputed on lines 224-226. -/
structure FinalRow where
  id : Option Int
  budget : Option ℚ
  revenue : Option ℚ
  director_encoded : Option String
  top_cast_avg_rating : Option ℚ
  budget_log : Option ℚ
  revenue_log : Option ℚ
  profit_ratio : Option ℚ
deriving DecidableEq, Repr

/-- `df.merge(enriched_df, on="id", how="left", suffixes=("", "_new"))`
(line 216): each left row is matched against every enrichment record with
the same id (an absent left id matches nothing, enrichment ids being always
present); an unmatched left row yields one output row with absent `_new`
columns; a left row with k matches yields k output rows. -/
def mergeBlock (ed : List EnrichRec) (l : Row) : List MergedRow :=
  if (ed.filter (fun r => decide (l.id = some r.id))).isEmpty then
    [{ id := l.id, budget := l.budget, revenue := l.revenue
       director_encoded := l.director_encoded
       top_cast_avg_rating := l.top_cast_avg_rating
       budget_new := none, revenue_new := none
       director_encoded_new := none, top_cast_avg_rating_new := none }]
  else
    (ed.filter (fun r => decide (l.id = some r.id))).map (fun r =>
      { id := l.id, budget := l.budget, revenue := l.revenue
        director_encoded := l.director_encoded
        top_cast_avg_rating := l.top_cast_avg_rating
        budget_new := r.budget, revenue_new := r.revenue
        director_encoded_new := r.director_encoded
        top_cast_avg_rating_new := r.top_cast_avg_rating })

/-- The whole left merge: one block of output rows per input row. -/
def leftMerge (df : List Row) (ed : List EnrichRec) : List MergedRow :=
  df.flatMap (mergeBlock ed)

/-- Cell-level semantics of `Series.combine_first` (line 220): keep the
original value where present, fill from the `_new` column where absent. -/
def combine_first {α : Type} (a b : Option α) : Option α :=
  match a with
  | some x => some x
  | none => b

/-- Lines 218-221: `merged[col] = merged[col].combine_first(merged[col_new])`
for each of the four enrichment columns, then drop the `_new` columns. -/
def applyCombine (m : MergedRow) : Row :=
  { id := m.id
    budget := combine_first m.budget m.budget_new
    revenue := combine_first m.revenue m.revenue_new
    director_encoded := combine_first m.director_encoded m.director_encoded_new
    top_cast_avg_rating := combine_first m.top_cast_avg_rating m.top_cast_avg_rating_new }

/-- Lines 224-226: recompute `budget_log`, `revenue_log`, `profit_ratio`.
`log1p x if notnull(x) and x > 0 else None`, and
`revenue/budget if notnull(budget) and budget > 0 else None`, where a `NaN`
revenue divided by a present budget is `NaN`, i.e. an absent cell. -/
def addDerived (log1p : ℚ → ℚ) (r : Row) : FinalRow :=
  { id := r.id, budget := r.budget, revenue := r.revenue
    director_encoded := r.director_encoded
    top_cast_avg_rating := r.top_cast_avg_rating
    budget_log :=
      match r.budget with
      | some x => if 0 < x then some (log1p x) else none
      | none => none
    revenue_log :=
      match r.revenue with
      | some x => if 0 < x then some (log1p x) else none
      | none => none
    profit_ratio :=
      match r.budget with
      | some b =>
          if 0 < b then
            match r.revenue with
            | some v => some (v / b)
            | none => none
          else none
      | none => none }

/-- The full merge block of `main` (lines 210-226): merge, combine-first the
four columns, recompute the derived columns. -/
def mergePipeline (log1p : ℚ → ℚ) (df : List Row) (ed : List EnrichRec) : List FinalRow :=
  (leftMerge df ed).map (fun m => addDerived log1p (applyCombine m))

/-- The id column of the merged table (row multiplicity is fixed by
`leftMerge`; the later column operations are row-wise). -/
def mergedIds (df : List Row) (ed : List EnrichRec) : List (Option Int) :=
  (leftMerge df ed).map MergedRow.id

/-- A checkpoint record as read back from `tmdb_enriched_progress.csv`;
only the id matters for resume, and it may be missing (`pd.notna` guard). -/
structure CheckpointRec where
  id : Option Int
deriving DecidableEq, Repr

/-- A task built from an input row (lines 137-142): the id is `int(row["id"])`
when present, `None` otherwise. Title and year only feed the disabled
fallback search. -/
structure TaskRec where
  id : Option Int
  title : Option String
  year : Option Int
deriving DecidableEq, Repr

/-- Line 150: `done_ids = {int(x["id"]) for x in enriched if pd.notna(x.get("id"))}`. -/
def done_ids (enriched : List CheckpointRec) : List Int :=
  enriched.filterMap CheckpointRec.id

/-- Lines 155-159: keep a task unless its id is present and already done. -/
def jobsOf (tasks : List TaskRec) (done : List Int) : List TaskRec :=
  tasks.filter (fun t =>
    match t.id with
    | some i => decide (i ∉ done)
    | none => true)

/-- Ids actually submitted to `fetch_by_id` (lines 167-184): a job with a
present id is fetched by that id; with `FALLBACK_SEARCH = False` a job
without an id is skipped and nothing is fetched for it. -/
def submittedIds (jobs : List TaskRec) : List Int :=
  jobs.filterMap (fun t =>
    match t.id with
    | some i => some i
    | none => if FALLBACK_SEARCH then none else none)

/-- Stand-in for `math.log1p` used only to instantiate witnesses and
counterexamples at a concrete function; every claim below quantifies over
the log function, so it holds of the real `log1p` in particular. -/
def qlog : ℚ → ℚ := fun x => x

/-- Witness response stream: every attempt gets HTTP 404. -/
def respC4W : ℕ → Resp := fun _ => .ok 404 none .null

/-- Witness response stream: every attempt raises a RequestException. -/
def respC5W : ℕ → Resp := fun _ => .exn

/-- Witness response stream: attempt 1 is rate-limited with `Retry-After: 3`,
every later attempt succeeds. -/
def respC6W : ℕ → Resp :=
  fun k => if k = 1 then .ok 429 (some 3) (.obj [("ok", .num 1)]) else .ok 200 none (.obj [("ok", .num 1)])

/-- Witness detail payload: a truthy JSON object with budget and revenue. -/
def detailsW : JVal := .obj [("budget", .num 500), ("revenue", .num 1000)]

/-- Witness credits payload: a truthy JSON object with crew and cast. -/
def creditsW : JVal :=
  .obj [("crew", .arr [.obj [("job", .str "Director"), ("name", .str "Ann")]]),
        ("cast", .arr [.obj [("popularity", .num 4)], .obj [("popularity", .num 6)]])]

/-- Witness checkpoint: one completed record with id 7. -/
def chkW : List CheckpointRec := [{ id := some 7 }]

/-- Witness task list: id 7 (already done) and id 8 (still to do). -/
def tasksW : List TaskRec :=
  [{ id := some 7, title := some "a", year := none },
   { id := some 8, title := some "b", year := none }]

/-- Witness input table: one row with id 1, budget 4, revenue 12. -/
def dfW : List Row :=
  [{ id := some 1, budget := some 4, revenue := some 12
     director_encoded := none, top_cast_avg_rating := none }]

/-- The final row the pipeline produces from `dfW` with no enrichment. -/
def frW : FinalRow :=
  { id := some 1, budget := some 4, revenue := some 12
    director_encoded := none, top_cast_avg_rating := none
    budget_log := some 4, revenue_log := some 12, profit_ratio := some 3 }

/-- Input table of the spec's scenario: row {id: 42, budget: NaN, revenue: 1000}. -/
def df42 : List Row :=
  [{ id := some 42, budget := none, revenue := some 1000
     director_encoded := none, top_cast_avg_rating := none }]

/-- Enrichment of the spec's scenario: record {id: 42, budget: 500}. -/
def ed42 : List EnrichRec :=
  [{ id := 42, budget := some 500, revenue := none
     director_encoded := none, top_cast_avg_rating := none }]

/-- Expected merged row of the spec's scenario: budget=500, revenue=1000,
budget_log=log1p(500), profit_ratio=2.0. -/
def scenarioRow (log1p : ℚ → ℚ) : FinalRow :=
  { id := some 42, budget := some 500, revenue := some 1000
    director_encoded := none, top_cast_avg_rating := none
    budget_log := some (log1p 500), revenue_log := some (log1p 1000)
    profit_ratio := some 2 }

/-- A merged row with both an original and an enrichment budget, used to
witness the first-non-missing-wins direction of the combine step. -/
def mC3W : MergedRow :=
  { id := some 5, budget := some 7, revenue := none
    director_encoded := none, top_cast_avg_rating := none
    budget_new := some 9, revenue_new := some 11
    director_encoded_new := none, top_cast_avg_rating_new := none }

/-- Counterexample input table: a single row with id 1. -/
def dfDup : List Row :=
  [{ id := some 1, budget := none, revenue := none
     director_encoded := none, top_cast_avg_rating := none }]

/-- Counterexample enrichment set: two records with the same id 1, as left
behind by a retried job that was checkpointed twice. -/
def edDup : List EnrichRec :=
  [{ id := 1, budget := some 100, revenue := none
     director_encoded := none, top_cast_avg_rating := none },
   { id := 1, budget := some 200, revenue := none
     director_encoded := none, top_cast_avg_rating := none }]

/-- Witness input table with distinct present ids 1 and 2. -/
def dfOk : List Row :=
  [{ id := some 1, budget := none, revenue := some 10
     director_encoded := none, top_cast_avg_rating := none },
   { id := some 2, budget := some 3, revenue := none
     director_encoded := none, top_cast_avg_rating := none }]

/-- Witness enrichment set with the single id 1. -/
def edOk : List EnrichRec :=
  [{ id := 1, budget := some 8, revenue := none
     director_encoded := none, top_cast_avg_rating := none }]

/-! ## Theorems -/

/-- C4: for every HTTP response whose status code is neither 200, nor 429,
nor in the 500-599 range, `safe_get` returns `None` after exactly one
attempt, performing no retry and no backoff sleep. -/
theorem claim_C4_client_error_no_retry (resp : ℕ → Resp) (m s : ℕ)
    (ra : Option ℕ) (p : JVal)
    (h1 : resp 1 = .ok s ra p) (h200 : s ≠ 200) (h429 : s ≠ 429)
    (h5xx : ¬(500 ≤ s ∧ s < 600)) (hm : 1 ≤ m) :
    safe_get resp m = { result := none, attempts := 1, sleeps := [] } := by
  obtain ⟨k, rfl⟩ : ∃ k, m = k + 1 := ⟨m - 1, by omega⟩
  unfold safe_get
  simp [safeGetGo, h1, h200, h429, h5xx]

/-- Concrete run of `claim_C4_client_error_no_retry`: a 404 on the first
attempt yields `None` after one attempt and no sleep. -/
theorem claim_C4_witness :
    safe_get respC4W 5 = { result := none, attempts := 1, sleeps := [] } :=
  claim_C4_client_error_no_retry respC4W 5 404 none .null rfl
    (by decide) (by decide) (by decide) (by decide)

/-- C5: when every attempt fails with a transport-level exception, `safe_get`
makes exactly `MAX_RETRIES = 5` attempts, sleeping 1, 2, 4, 8 seconds between
successive attempts (starting at 1 and doubling), and returns `None` after
the final attempt instead of raising. -/
theorem claim_C5_exception_backoff (resp : ℕ → Resp) (h : ∀ k, resp k = .exn) :
    safe_get resp MAX_RETRIES =
      { result := none, attempts := 5, sleeps := [1, 2, 4, 8] } := by
  simp [safe_get, MAX_RETRIES, safeGetGo, h, BACKOFF_BASE]
  norm_num

/-- Concrete run of `claim_C5_exception_backoff` on an always-failing
transport. -/
theorem claim_C5_witness :
    safe_get respC5W MAX_RETRIES =
      { result := none, attempts := 5, sleeps := [1, 2, 4, 8] } :=
  claim_C5_exception_backoff respC5W (fun _ => rfl)

/-- C7: every identifier present in a checkpoint record is excluded from the
job set, so it is never submitted to `fetch_by_id` during the resumed run. -/
theorem claim_C7_resume_skips_done (enriched : List CheckpointRec)
    (tasks : List TaskRec) (i : Int) (hi : i ∈ done_ids enriched) :
    i ∉ submittedIds (jobsOf tasks (done_ids enriched)) := by
  intro hmem
  unfold submittedIds at hmem
  rw [List.mem_filterMap] at hmem
  obtain ⟨t, ht, hid⟩ := hmem
  unfold jobsOf at ht
  rw [List.mem_filter] at ht
  obtain ⟨-, hkeep⟩ := ht
  cases h : t.id with
  | none => rw [h] at hid; simp [FALLBACK_SEARCH] at hid
  | some j =>
    rw [h] at hid hkeep
    simp only [Option.some.injEq] at hid
    subst hid
    simp only [decide_eq_true_eq] at hkeep
    exact hkeep hi

/-- Concrete run of `claim_C7_resume_skips_done`: id 7 from the checkpoint is
not among the submitted ids. -/
theorem claim_C7_witness :
    (7 : Int) ∉ submittedIds (jobsOf tasksW (done_ids chkW)) :=
  claim_C7_resume_skips_done chkW tasksW 7 (by decide)

/-- C8: `fetch_by_id` yields a record only when both the detail call and the
credits call produced a payload; if either call returned no result the whole
unit of work contributes nothing, so a detail payload obtained before a
failed credits call is discarded rather than stored. -/
theorem claim_C8_both_calls_required (mid : Int) (d c : Option JVal) :
    (d = none → fetch_by_id mid d c = none) ∧
    (c = none → fetch_by_id mid d c = none) ∧
    ((fetch_by_id mid d c).isSome → d.isSome ∧ c.isSome) := by
  refine ⟨?_, ?_, ?_⟩
  · rintro rfl; rfl
  · rintro rfl
    cases d with
    | none => rfl
    | some dv =>
      unfold fetch_by_id
      by_cases hd : truthy dv = false <;> simp [hd]
  · intro hs
    cases d with
    | none => simp [fetch_by_id] at hs
    | some dv =>
      cases c with
      | none =>
        unfold fetch_by_id at hs
        split at hs <;> simp at hs
      | some cv => exact ⟨rfl, rfl⟩

/-- Concrete run of `claim_C8_both_calls_required`: a truthy detail payload
followed by a failed credits call yields no record. -/
theorem claim_C8_witness : fetch_by_id 42 (some detailsW) none = none :=
  (claim_C8_both_calls_required 42 (some detailsW) none).2.1 rfl

/-- C10: a call that returns HTTP 200 with a falsy JSON payload (such as an
empty object) is treated by `fetch_by_id` exactly like a failed call — the
whole unit of work yields `None` — even though `safe_get` itself returns the
parsed payload on a 200 response. -/
theorem claim_C10_falsy_payload_discarded (mid : Int) (d c : Option JVal)
    (j : JVal) (hj : truthy j = false) :
    (d = some j → fetch_by_id mid d c = none) ∧
    (c = some j → fetch_by_id mid d c = none) ∧
    (safe_get (fun _ => .ok 200 none j) MAX_RETRIES).result = some j := by
  refine ⟨?_, ?_, ?_⟩
  · rintro rfl
    unfold fetch_by_id
    simp [hj]
  · rintro rfl
    cases d with
    | none => rfl
    | some dv =>
      unfold fetch_by_id
      by_cases hd : truthy dv = false
      · simp [hd]
      · simp [hd, hj]
  · simp [safe_get, MAX_RETRIES, safeGetGo]

/-- Concrete run of `claim_C10_falsy_payload_discarded`: an empty-object
detail payload with healthy credits yields no record. -/
theorem claim_C10_witness :
    fetch_by_id 42 (some (JVal.obj [])) (some creditsW) = none :=
  (claim_C10_falsy_payload_discarded 42 (some (.obj [])) (some creditsW)
    (.obj []) rfl).1 rfl

/-- C1: in the final merged table the `profit_ratio` cell of a row is present
iff both budget and revenue are present and budget > 0, and when present it
equals revenue/budget. -/
theorem claim_C1_profit_ratio (log1p : ℚ → ℚ) (df : List Row)
    (ed : List EnrichRec) (fr : FinalRow)
    (hfr : fr ∈ mergePipeline log1p df ed) :
    ((∃ q, fr.profit_ratio = some q) ↔
      ∃ b v, fr.budget = some b ∧ fr.revenue = some v ∧ 0 < b) ∧
    (∀ b v, fr.budget = some b → fr.revenue = some v → 0 < b →
      fr.profit_ratio = some (v / b)) := by
  unfold mergePipeline at hfr
  obtain ⟨m, -, rfl⟩ := List.mem_map.mp hfr
  constructor
  · cases hb : (applyCombine m).budget with
    | none => simp [addDerived, hb]
    | some b =>
      by_cases hpos : 0 < b
      · cases hv : (applyCombine m).revenue with
        | none => simp [addDerived, hb, hv, hpos]
        | some v => simp [addDerived, hb, hv, hpos]
      · simp [addDerived, hb, hpos]
  · intro b v hb hv hpos
    simp only [addDerived] at *
    simp [hb, hv, hpos]

/-- Concrete run of `claim_C1_profit_ratio` on `frW`. -/
theorem claim_C1_witness :
    ((∃ q, frW.profit_ratio = some q) ↔
      ∃ b v, frW.budget = some b ∧ frW.revenue = some v ∧ 0 < b) ∧
    (∀ b v, frW.budget = some b → frW.revenue = some v → 0 < b →
      frW.profit_ratio = some (v / b)) :=
  claim_C1_profit_ratio qlog dfW [] frW (by
    have h : mergePipeline qlog dfW [] = [frW] := by
      simp [mergePipeline, leftMerge, mergeBlock, dfW, frW, applyCombine,
        combine_first, addDerived, qlog]
      norm_num
    rw [h]
    exact List.mem_singleton.mpr rfl)

/-- C9: in the final merged table, `budget_log` equals log1p(budget) where
budget is present and positive, and is absent where budget is missing or
non-positive; likewise for `revenue_log` with respect to revenue. -/
theorem claim_C9_log_columns (log1p : ℚ → ℚ) (df : List Row)
    (ed : List EnrichRec) (fr : FinalRow)
    (hfr : fr ∈ mergePipeline log1p df ed) :
    (∀ b, fr.budget = some b → 0 < b → fr.budget_log = some (log1p b)) ∧
    (∀ b, fr.budget = some b → b ≤ 0 → fr.budget_log = none) ∧
    (fr.budget = none → fr.budget_log = none) ∧
    (∀ v, fr.revenue = some v → 0 < v → fr.revenue_log = some (log1p v)) ∧
    (∀ v, fr.revenue = some v → v ≤ 0 → fr.revenue_log = none) ∧
    (fr.revenue = none → fr.revenue_log = none) := by
  unfold mergePipeline at hfr
  obtain ⟨m, -, rfl⟩ := List.mem_map.mp hfr
  refine ⟨?_, ?_, ?_, ?_, ?_, ?_⟩
  · intro b hb hpos; simp only [addDerived] at hb ⊢; simp [hb, hpos]
  · intro b hb hle; simp only [addDerived] at hb ⊢; simp [hb, not_lt.mpr hle]
  · intro hb; simp only [addDerived] at hb ⊢; simp [hb]
  · intro v hv hpos; simp only [addDerived] at hv ⊢; simp [hv, hpos]
  · intro v hv hle; simp only [addDerived] at hv ⊢; simp [hv, not_lt.mpr hle]
  · intro hv; simp only [addDerived] at hv ⊢; simp [hv]

/-- Concrete run of `claim_C9_log_columns` on `frW`. -/
theorem claim_C9_witness :
    (∀ b, frW.budget = some b → 0 < b → frW.budget_log = some (qlog b)) ∧
    (∀ b, frW.budget = some b → b ≤ 0 → frW.budget_log = none) ∧
    (frW.budget = none → frW.budget_log = none) ∧
    (∀ v, frW.revenue = some v → 0 < v → frW.revenue_log = some (qlog v)) ∧
    (∀ v, frW.revenue = some v → v ≤ 0 → frW.revenue_log = none) ∧
    (frW.revenue = none → frW.revenue_log = none) :=
  claim_C9_log_columns qlog dfW [] frW (by
    have h : mergePipeline qlog dfW [] = [frW] := by
      simp [mergePipeline, leftMerge, mergeBlock, dfW, frW, applyCombine,
        combine_first, addDerived, qlog]
      norm_num
    rw [h]
    exact List.mem_singleton.mpr rfl)

/-- C3: the merge keeps each original value of the four enrichment columns
where present and fills from the enrichment value only where the original is
absent; on the spec's scenario (row {id: 42, budget: NaN, revenue: 1000},
enrichment {id: 42, budget: 500}) the merged row has budget=500,
revenue=1000, budget_log=log1p(500), profit_ratio=2. -/
theorem claim_C3_combine_first_semantics (log1p : ℚ → ℚ) :
    (∀ m : MergedRow,
      (m.budget.isSome = true → (applyCombine m).budget = m.budget) ∧
      (m.budget = none → (applyCombine m).budget = m.budget_new) ∧
      (m.revenue.isSome = true → (applyCombine m).revenue = m.revenue) ∧
      (m.revenue = none → (applyCombine m).revenue = m.revenue_new) ∧
      (m.director_encoded.isSome = true →
        (applyCombine m).director_encoded = m.director_encoded) ∧
      (m.director_encoded = none →
        (applyCombine m).director_encoded = m.director_encoded_new) ∧
      (m.top_cast_avg_rating.isSome = true →
        (applyCombine m).top_cast_avg_rating = m.top_cast_avg_rating) ∧
      (m.top_cast_avg_rating = none →
        (applyCombine m).top_cast_avg_rating = m.top_cast_avg_rating_new)) ∧
    mergePipeline log1p df42 ed42 = [scenarioRow log1p] := by
  constructor
  · intro m
    refine ⟨?_, ?_, ?_, ?_, ?_, ?_, ?_, ?_⟩ <;> intro h
    · cases hx : m.budget with
      | none => rw [hx] at h; simp at h
      | some x => simp [applyCombine, combine_first, hx]
    · simp [applyCombine, combine_first, h]
    · cases hx : m.revenue with
      | none => rw [hx] at h; simp at h
      | some x => simp [applyCombine, combine_first, hx]
    · simp [applyCombine, combine_first, h]
    · cases hx : m.director_encoded with
      | none => rw [hx] at h; simp at h
      | some x => simp [applyCombine, combine_first, hx]
    · simp [applyCombine, combine_first, h]
    · cases hx : m.top_cast_avg_rating with
      | none => rw [hx] at h; simp at h
      | some x => simp [applyCombine, combine_first, hx]
    · simp [applyCombine, combine_first, h]
  · simp [mergePipeline, leftMerge, mergeBlock, df42, ed42, applyCombine,
      combine_first, addDerived, scenarioRow]
    norm_num

/-- Concrete run of `claim_C3_combine_first_semantics`: the scenario output
with the stand-in log, and the keep-original direction on `mC3W`. -/
theorem claim_C3_witness :
    mergePipeline qlog df42 ed42 = [scenarioRow qlog] ∧
    (applyCombine mC3W).budget = mC3W.budget :=
  ⟨(claim_C3_combine_first_semantics qlog).2,
   ((claim_C3_combine_first_semantics qlog).1 mC3W).1 (by decide)⟩

/-- Every output row of a merge block carries the id of its input row. -/
theorem mergeBlock_id_eq (ed : List EnrichRec) (l : Row) :
    ∀ m ∈ mergeBlock ed l, m.id = l.id := by
  intro m hm
  unfold mergeBlock at hm
  by_cases h : (ed.filter (fun r => decide (l.id = some r.id))).isEmpty
  · rw [if_pos h] at hm
    simp only [List.mem_singleton] at hm
    subst hm; rfl
  · rw [if_neg h] at hm
    rw [List.mem_map] at hm
    obtain ⟨r, -, rfl⟩ := hm
    rfl

/-- With pairwise-distinct enrichment ids, at most one record matches a key. -/
theorem filter_id_length_le (ed : List EnrichRec)
    (hed : (ed.map EnrichRec.id).Nodup) (o : Option Int) :
    (ed.filter (fun r => decide (o = some r.id))).length ≤ 1 := by
  induction ed with
  | nil => simp
  | cons r ed ih =>
    simp only [List.map_cons, List.nodup_cons] at hed
    obtain ⟨hr, hnd⟩ := hed
    by_cases h : o = some r.id
    · have hnil : ed.filter (fun r' => decide (o = some r'.id)) = [] := by
        rw [List.filter_eq_nil_iff]
        intro r' hr'
        rw [h]
        simp only [decide_eq_true_eq, Option.some.injEq]
        intro he
        exact hr (List.mem_map.mpr ⟨r', hr', he.symm⟩)
      rw [List.filter_cons, if_pos (by simp [h]), hnil]
      simp
    · rw [List.filter_cons, if_neg (by simp [h])]
      exact ih hnd

/-- A merge block has at most one row when enrichment ids are distinct. -/
theorem mergeBlock_length_le (ed : List EnrichRec)
    (hed : (ed.map EnrichRec.id).Nodup) (l : Row) :
    (mergeBlock ed l).length ≤ 1 := by
  unfold mergeBlock
  by_cases h : (ed.filter (fun r => decide (l.id = some r.id))).isEmpty
  · simp [h]
  · rw [if_neg h, List.length_map]
    exact filter_id_length_le ed hed l.id

/-- A block contributes at most one row with id `i`, and none at all when
its input row's id differs from `i`. -/
theorem countP_mergeBlock_le (ed : List EnrichRec)
    (hed : (ed.map EnrichRec.id).Nodup) (l : Row) (i : Int) :
    (mergeBlock ed l).countP (fun m => decide (m.id = some i)) ≤
      if l.id = some i then 1 else 0 := by
  by_cases hid : l.id = some i
  · rw [if_pos hid]
    exact le_trans (List.countP_le_length _) (mergeBlock_length_le ed hed l)
  · rw [if_neg hid, Nat.le_zero, List.countP_eq_zero]
    intro m hm
    simp only [decide_eq_true_eq]
    rw [mergeBlock_id_eq ed l m hm]
    exact hid

/-- The left merge does not increase the per-id row count when the
enrichment ids are pairwise distinct. -/
theorem countP_leftMerge_le (ed : List EnrichRec)
    (hed : (ed.map EnrichRec.id).Nodup) (df : List Row) (i : Int) :
    (leftMerge df ed).countP (fun m => decide (m.id = some i)) ≤
      df.countP (fun l => decide (l.id = some i)) := by
  induction df with
  | nil => simp [leftMerge]
  | cons l df ih =>
    have hsplit : leftMerge (l :: df) ed = mergeBlock ed l ++ leftMerge df ed := rfl
    rw [hsplit, List.countP_append]
    simp only [List.countP_cons]
    have h1 := countP_mergeBlock_le ed hed l i
    by_cases hid : l.id = some i
    · rw [if_pos hid] at h1
      rw [if_pos (show decide (l.id = some i) = true by simp [hid])]
      omega
    · rw [if_neg hid] at h1
      rw [if_neg (show ¬ decide (l.id = some i) = true by simp [hid])]
      omega

/-- The per-id row count of a table equals the multiset count of that id
among the table's present ids. -/
theorem countP_id_eq_count (df : List Row) (i : Int) :
    df.countP (fun l => decide (l.id = some i)) = (df.filterMap Row.id).count i := by
  induction df with
  | nil => simp
  | cons l df ih =>
    rw [List.countP_cons]
    cases h : l.id with
    | none => simp [List.filterMap_cons, h, ih]
    | some j =>
      by_cases hj : j = i
      · subst hj; simp [List.filterMap_cons, h, ih, List.count_cons]
      · simp [List.filterMap_cons, h, ih, List.count_cons, hj]

/-- C2 as stated is false: merging by key does not collapse duplicates. With
a single input row of id 1 and two enrichment records of id 1 (as left by a
retried, twice-checkpointed job), the left merge emits id 1 twice. -/
theorem claim_C2_counterexample :
    ¬ (∀ i : Int,
        (mergedIds dfDup edDup).countP (fun x => decide (x = some i)) ≤ 1) :=
  fun h => absurd (h 1) (by decide)

/-- C2 amended: if the present identifiers of the original table are
pairwise distinct and the enrichment records have pairwise-distinct
identifiers, then no identifier appears more than once in the final merged
table. -/
theorem claim_C2_amended_unique_ids (log1p : ℚ → ℚ) (df : List Row)
    (ed : List EnrichRec) (hdf : (df.filterMap Row.id).Nodup)
    (hed : (ed.map EnrichRec.id).Nodup) (i : Int) :
    (mergePipeline log1p df ed).countP (fun fr => decide (fr.id = some i)) ≤ 1 := by
  have hpipe : (mergePipeline log1p df ed).countP (fun fr => decide (fr.id = some i))
      = (leftMerge df ed).countP (fun m => decide (m.id = some i)) := by
    unfold mergePipeline
    rw [List.countP_map]
    rfl
  rw [hpipe]
  calc (leftMerge df ed).countP (fun m => decide (m.id = some i))
      ≤ df.countP (fun l => decide (l.id = some i)) := countP_leftMerge_le ed hed df i
    _ = (df.filterMap Row.id).count i := countP_id_eq_count df i
    _ ≤ 1 := List.nodup_iff_count_le_one.mp hdf i

/-- Concrete run of `claim_C2_amended_unique_ids` on distinct-id tables. -/
theorem claim_C2_witness :
    (mergePipeline qlog dfOk edOk).countP (fun fr => decide (fr.id = some 1)) ≤ 1 :=
  claim_C2_amended_unique_ids qlog dfOk edOk (by decide) (by decide) 1

/-- Index arithmetic helper: the element right after a front segment. -/
theorem getElem_after_front (l t : List ℚ) (x : ℚ) :
    (l ++ x :: t)[l.length]? = some x := by
  rw [List.getElem?_append_right (le_refl l.length)]
  simp

/-- The sleep durations already accumulated survive, reversed, as a front
segment of the final sleep log. -/
theorem safeGetGo_sleeps_acc (resp : ℕ → Resp) (maxRetries : ℕ) :
    ∀ (fuel attempt : ℕ) (wait : ℚ) (acc : List ℚ),
      ∃ tail, (safeGetGo resp maxRetries fuel attempt wait acc).sleeps
        = acc.reverse ++ tail := by
  intro fuel
  induction fuel with
  | zero =>
    intro attempt wait acc
    exact ⟨[], by simp [safeGetGo]⟩
  | succ f ih =>
    intro attempt wait acc
    cases hr : resp attempt with
    | exn =>
      by_cases hm : attempt = maxRetries
      · refine ⟨[], ?_⟩
        simp only [safeGetGo, hr]
        rw [if_pos hm]
        simp
      · obtain ⟨t, ht⟩ := ih (attempt + 1) (wait * BACKOFF_BASE) (wait :: acc)
        refine ⟨wait :: t, ?_⟩
        simp only [safeGetGo, hr]
        rw [if_neg hm, ht]
        simp
    | ok s ra p =>
      by_cases h200 : s = 200
      · refine ⟨[], ?_⟩
        simp only [safeGetGo, hr]
        rw [if_pos h200]
        simp
      · by_cases h429 : s = 429
        · cases ra with
          | some n =>
            obtain ⟨t, ht⟩ := ih (attempt + 1) (wait * BACKOFF_BASE) (((n : ℚ) + 1) :: acc)
            refine ⟨((n : ℚ) + 1) :: t, ?_⟩
            simp only [safeGetGo, hr]
            rw [if_neg h200, if_pos h429, ht]
            simp
          | none =>
            obtain ⟨t, ht⟩ := ih (attempt + 1) (wait * BACKOFF_BASE) (wait :: acc)
            refine ⟨wait :: t, ?_⟩
            simp only [safeGetGo, hr]
            rw [if_neg h200, if_pos h429, ht]
            simp
        · by_cases h5 : 500 ≤ s ∧ s < 600
          · obtain ⟨t, ht⟩ := ih (attempt + 1) (wait * BACKOFF_BASE) (wait :: acc)
            refine ⟨wait :: t, ?_⟩
            simp only [safeGetGo, hr]
            rw [if_neg h200, if_neg h429, if_pos h5, ht]
            simp
          · refine ⟨[], ?_⟩
            simp only [safeGetGo, hr]
            rw [if_neg h200, if_neg h429, if_neg h5]
            simp

/-- If the attempt with index `i` received a 429 response carrying a
`Retry-After` header of `n` seconds, and the run went on past attempt `i`,
then the sleep taken right after attempt `i` was exactly `n + 1` seconds. -/
theorem safeGetGo_429_sleep (resp : ℕ → Resp) (maxRetries i n : ℕ) (p : JVal)
    (h429i : resp i = .ok 429 (some n) p) :
    ∀ (fuel attempt : ℕ) (wait : ℚ) (acc : List ℚ),
      attempt ≤ i →
      i < (safeGetGo resp maxRetries fuel attempt wait acc).attempts →
      (safeGetGo resp maxRetries fuel attempt wait acc).sleeps[acc.length + (i - attempt)]?
        = some ((n : ℚ) + 1) := by
  intro fuel
  induction fuel with
  | zero =>
    intro attempt wait acc hle hlt
    simp only [safeGetGo] at hlt
    omega
  | succ f ih =>
    intro attempt wait acc hle hlt
    rcases eq_or_lt_of_le hle with heq | hlt2
    · subst heq
      simp only [safeGetGo, h429i] at hlt ⊢
      rw [if_pos trivial] at hlt ⊢
      rw [if_neg (by decide : ¬(429 = 200))] at hlt ⊢
      obtain ⟨t, ht⟩ := safeGetGo_sleeps_acc resp maxRetries f (attempt + 1)
        (wait * BACKOFF_BASE) (((n : ℚ) + 1) :: acc)
      rw [ht, Nat.sub_self, Nat.add_zero, List.reverse_cons, List.append_assoc]
      rw [show acc.length = acc.reverse.length from (List.length_reverse acc).symm]
      exact getElem_after_front acc.reverse t ((n : ℚ) + 1)
    · cases hr : resp attempt with
      | exn =>
        by_cases hm : attempt = maxRetries
        · simp only [safeGetGo, hr] at hlt
          rw [if_pos hm] at hlt
          simp only [] at hlt
          omega
        · simp only [safeGetGo, hr] at hlt ⊢
          rw [if_neg hm] at hlt ⊢
          have hrec := ih (attempt + 1) (wait * BACKOFF_BASE) (wait :: acc) (by omega) hlt
          rw [show acc.length + (i - attempt)
              = (wait :: acc).length + (i - (attempt + 1)) by
            simp only [List.length_cons]; omega]
          exact hrec
      | ok s ra p_ =>
        by_cases h200 : s = 200
        · simp only [safeGetGo, hr] at hlt
          rw [if_pos h200] at hlt
          simp only [] at hlt
          omega
        · by_cases h429 : s = 429
          · cases ra with
            | some k =>
              simp only [safeGetGo, hr] at hlt ⊢
              rw [if_neg h200, if_pos h429] at hlt ⊢
              have hrec := ih (attempt + 1) (wait * BACKOFF_BASE)
                (((k : ℚ) + 1) :: acc) (by omega) hlt
              rw [show acc.length + (i - attempt)
                  = (((k : ℚ) + 1) :: acc).length + (i - (attempt + 1)) by
                simp only [List.length_cons]; omega]
              exact hrec
            | none =>
              simp only [safeGetGo, hr] at hlt ⊢
              rw [if_neg h200, if_pos h429] at hlt ⊢
              have hrec := ih (attempt + 1) (wait * BACKOFF_BASE)
                (wait :: acc) (by omega) hlt
              rw [show acc.length + (i - attempt)
                  = (wait :: acc).length + (i - (attempt + 1)) by
                simp only [List.length_cons]; omega]
              exact hrec
          · by_cases h5 : 500 ≤ s ∧ s < 600
            · simp only [safeGetGo, hr] at hlt ⊢
              rw [if_neg h200, if_neg h429, if_pos h5] at hlt ⊢
              have hrec := ih (attempt + 1) (wait * BACKOFF_BASE)
                (wait :: acc) (by omega) hlt
              rw [show acc.length + (i - attempt)
                  = (wait :: acc).length + (i - (attempt + 1)) by
                simp only [List.length_cons]; omega]
              exact hrec
            · simp only [safeGetGo, hr] at hlt
              rw [if_neg h200, if_neg h429, if_neg h5] at hlt
              simp only [] at hlt
              omega

/-- C6: for every HTTP 429 response carrying a `Retry-After` header that is
followed by a retry, `safe_get` sleeps at least the header's number of
seconds plus a fixed one-second margin before the retry (the sleep at
position `i - 1` of the log follows attempt `i` and precedes attempt
`i + 1`). -/
theorem claim_C6_retry_after_sleep (resp : ℕ → Resp) (m i n : ℕ) (p : JVal)
    (hi : 1 ≤ i) (h429 : resp i = .ok 429 (some n) p)
    (hretry : i < (safe_get resp m).attempts) :
    ∃ s, (safe_get resp m).sleeps[i - 1]? = some s ∧ (n : ℚ) + 1 ≤ s := by
  refine ⟨(n : ℚ) + 1, ?_, le_refl _⟩
  have h := safeGetGo_429_sleep resp m i n p h429 m 1 1 [] hi hretry
  simpa using h

/-- Concrete run of `claim_C6_retry_after_sleep`: a 429 with Retry-After 3
on the first attempt is followed by a sleep of 4 seconds. -/
theorem claim_C6_witness :
    ∃ s, (safe_get respC6W 5).sleeps[1 - 1]? = some s ∧ ((3 : ℕ) : ℚ) + 1 ≤ s :=
  claim_C6_retry_after_sleep respC6W 5 1 3 (.obj [("ok", .num 1)]) (le_refl 1) rfl
    (by norm_num [safe_get, safeGetGo, respC6W])
